import Mathlib

/-!
Verification of the Git-Cheat commit date assigner.

Shallow embedding of the date-randomization core of `gitcheat.py` and
`git_transfer_fixed.py`:

* `generate_random_date_range` embeds the identical Python function of the
  same name found in both scripts (gitcheat.py lines 74-94,
  git_transfer_fixed.py lines 71-91).
* `buildCommitDateMap` embeds the commit-to-date correlation step of
  `transfer_repo` (gitcheat.py lines 162-166, git_transfer_fixed.py
  lines 192-195).
* `correlateFixed` embeds git_transfer_fixed.py's mismatch handling plus
  correlation (lines 184-195).

Dates: `strptime(s, "%Y-%m-%d")` always yields a midnight datetime, so the
two parsed inputs are represented by their day numbers `startDay endDay : ℤ`;
a datetime value is represented by its total number of seconds (an `ℤ`),
with `startDay` standing for the timestamp `startDay * 86400`.  With both
endpoints at midnight, `(end - start).days` is exactly `endDay - startDay`.

Randomness: `random.randint(0, n)` is embedded as an oracle draw reduced
modulo `n + 1` (`randint0`), so every oracle yields an in-range value and
every in-range value is attained by some oracle.
-/

namespace GitCheat

/-- Embeds `random.randint(0, n)`: the raw oracle value reduced into the
inclusive range `[0, n]`. -/
def randint0 (n : Nat) (raw : Nat) : Nat :=
  raw % (n + 1)

/-- Embeds `start + timedelta(days=random_days, seconds=random_seconds)`
(gitcheat.py line 89 / git_transfer_fixed.py line 86), in seconds. -/
def candidate (startDay : Int) (d s : Nat) : Int :=
  startDay * 86400 + (d : Int) * 86400 + (s : Int)

/-- Embeds `generate_random_date_range(start_date, end_date, num_commits)`
(gitcheat.py lines 74-94 / git_transfer_fixed.py lines 71-91).

`if start >= end: return []`; otherwise draw, for each of `num_commits`
iterations, `random_days = randint(0, time_diff.days)` and
`random_seconds = randint(0, 86400)`, build the candidate timestamp, and
finally `dates.sort()`.  The random source is the oracle `draws`, whose
`i`-th pair feeds the two `randint` calls of iteration `i`. -/
def generate_random_date_range (startDay endDay : Int) (numCommits : Nat)
    (draws : Nat → Nat × Nat) : List Int :=
  if startDay ≥ endDay then []
  else
    let spanDays : Nat := (endDay - startDay).toNat
    let dates : List Int := (List.range numCommits).map fun i =>
      candidate startDay (randint0 spanDays (draws i).1)
        (randint0 86400 (draws i).2)
    List.insertionSort (· ≤ ·) dates

/-- Embeds the correlation loop
`for i, commit in enumerate(commits): if i < len(random_dates):
  map commit to int(random_dates[i].timestamp())`
(gitcheat.py lines 162-166 build exactly these case-arms of the env filter;
git_transfer_fixed.py lines 192-195 build exactly this dict).  Commits past
the end of the date list receive no entry, surplus dates are unused: this
is precisely `List.zip`. -/
def buildCommitDateMap (commits : List String) (dates : List Int) :
    List (String × Int) :=
  commits.zip dates

/-- Lookup in the commit-date mapping (Python dict indexing; on the
duplicate-free key lists produced by `git log` the first match is the only
match). -/
def mapLookup (m : List (String × Int)) (c : String) : Option Int :=
  m.lookup c

/-- Embeds git_transfer_fixed.py lines 184-189: on a length mismatch a
warning is logged and, when there are more commits than dates, the dates
are regenerated for the full commit count; a surplus of dates is left
as-is. -/
def adjustDates (startDay endDay : Int) (draws : Nat → Nat × Nat)
    (commits : List String) (dates : List Int) : List Int :=
  if commits.length ≠ dates.length then
    if commits.length > dates.length then
      generate_random_date_range startDay endDay commits.length draws
    else dates
  else dates

/-- Embeds git_transfer_fixed.py's date-modification step, lines 184-195:
mismatch adjustment followed by the mapping construction. -/
def correlateFixed (startDay endDay : Int) (draws : Nat → Nat × Nat)
    (commits : List String) (dates : List Int) : List (String × Int) :=
  buildCommitDateMap commits (adjustDates startDay endDay draws commits dates)

/-- Whether git_transfer_fixed.py line 185 logs its
"Commit count mismatch" warning. -/
def countMismatchWarned (commits : List String) (dates : List Int) : Bool :=
  commits.length ≠ dates.length

/-! Helper lemmas shared by the claim theorems. -/

/-- `randint(0, n)` always lands in the inclusive range `[0, n]`. -/
theorem randint0_le (n raw : Nat) : randint0 n raw ≤ n :=
  Nat.lt_succ_iff.mp (Nat.mod_lt raw (Nat.succ_pos n))

/-- Every value of the inclusive range `[0, n]` is attained by some oracle
draw. -/
theorem randint0_eq_self {n x : Nat} (h : x ≤ n) : randint0 n x = x :=
  Nat.mod_eq_of_lt (Nat.lt_succ_of_le h)

/-- On a valid range the generator takes its main branch. -/
theorem gen_eq_of_lt (startDay endDay : Int) (numCommits : Nat)
    (draws : Nat → Nat × Nat) (h : startDay < endDay) :
    generate_random_date_range startDay endDay numCommits draws =
      List.insertionSort (· ≤ ·) ((List.range numCommits).map fun i =>
        candidate startDay (randint0 (endDay - startDay).toNat (draws i).1)
          (randint0 86400 (draws i).2)) := by
  unfold generate_random_date_range
  rw [if_neg (not_le.mpr h)]

/-- Every member of a generated sequence is a candidate with in-range
offsets. -/
theorem exists_offsets_of_mem_gen {startDay endDay : Int} {numCommits : Nat}
    {draws : Nat → Nat × Nat} {v : Int} (h : startDay < endDay)
    (hv : v ∈ generate_random_date_range startDay endDay numCommits draws) :
    ∃ d s, d ≤ (endDay - startDay).toNat ∧ s ≤ 86400 ∧
      v = candidate startDay d s := by
  rw [gen_eq_of_lt startDay endDay numCommits draws h,
    List.mem_insertionSort, List.mem_map] at hv
  obtain ⟨i, _, rfl⟩ := hv
  exact ⟨_, _, randint0_le _ _, randint0_le _ _, rfl⟩

/-- Range bounds of a candidate with in-range offsets. -/
theorem candidate_bounds {startDay endDay : Int} {d s : Nat}
    (h : startDay < endDay) (hd : d ≤ (endDay - startDay).toNat)
    (hs : s ≤ 86400) :
    startDay * 86400 ≤ candidate startDay d s ∧
      candidate startDay d s ≤ endDay * 86400 + 86400 := by
  unfold candidate
  omega

/-- The generated sequence has exactly the requested length. -/
theorem gen_length (startDay endDay : Int) (numCommits : Nat)
    (draws : Nat → Nat × Nat) (h : startDay < endDay) :
    (generate_random_date_range startDay endDay numCommits draws).length =
      numCommits := by
  rw [gen_eq_of_lt startDay endDay numCommits draws h]
  simp

/-- The generated sequence is sorted ascending. -/
theorem gen_sorted (startDay endDay : Int) (numCommits : Nat)
    (draws : Nat → Nat × Nat) :
    List.Sorted (· ≤ ·)
      (generate_random_date_range startDay endDay numCommits draws) := by
  unfold generate_random_date_range
  split
  · exact List.sorted_nil
  · exact List.sorted_insertionSort _ _

/-- Association-list lookup over zipped duplicate-free keys retrieves the
value at the same index. -/
theorem lookup_zip_get (cs : List String) (ds : List Int) (hnd : cs.Nodup)
    (i : Nat) (hc : i < cs.length) (hd : i < ds.length) :
    (cs.zip ds).lookup (cs.get ⟨i, hc⟩) = some (ds.get ⟨i, hd⟩) := by
  induction cs generalizing ds i with
  | nil => simp at hc
  | cons c cs ih =>
    cases ds with
    | nil => simp at hd
    | cons b ds =>
      cases i with
      | zero => simp [List.lookup]
      | succ k =>
        have hck : k < cs.length := by simpa using hc
        have hdk : k < ds.length := by simpa using hd
        have hne : cs.get ⟨k, hck⟩ ≠ c := by
          intro he
          exact (List.nodup_cons.mp hnd).1 (he ▸ List.get_mem cs k hck)
        have hbeq : (cs.get ⟨k, hck⟩ == c) = false := beq_eq_false_iff_ne.mpr hne
        simp only [List.get_eq_getElem] at hbeq
        have hstep := ih ds (List.nodup_cons.mp hnd).2 k hck hdk
        simpa [List.lookup, List.zip, hbeq] using hstep

end GitCheat

open GitCheat

/-- C4: for every pair of dates with start == end or start > end and every
count, generate_random_date_range fails the range check (InvalidRange) and
produces no sequence: it yields an empty result. -/
theorem c4_invalid_range_empty (startDay endDay : Int) (numCommits : Nat)
    (draws : Nat → Nat × Nat) (h : startDay = endDay ∨ startDay > endDay) :
    generate_random_date_range startDay endDay numCommits draws = [] := by
  unfold generate_random_date_range
  rw [if_pos (by rcases h with h | h <;> omega)]

theorem c4_witness :
    ((3 : Int) = 3 ∨ (3 : Int) > 3) ∧
      generate_random_date_range 3 3 5 (fun _ => (0, 0)) = [] :=
  ⟨Or.inl rfl, c4_invalid_range_empty 3 3 5 (fun _ => (0, 0)) (Or.inl rfl)⟩

/-- C5: for every valid start < end, every count and every draw sequence,
the returned sequence is non-decreasing (sorted ascending); duplicates are
permitted, as the concrete run in the second conjunct shows (two identical
timestamps). -/
theorem c5_sorted_with_duplicates (startDay endDay : Int) (numCommits : Nat)
    (draws : Nat → Nat × Nat) (h : startDay < endDay) :
    List.Sorted (· ≤ ·)
        (generate_random_date_range startDay endDay numCommits draws) ∧
      generate_random_date_range 0 1 2 (fun _ => (0, 0)) = [0, 0] :=
  ⟨gen_sorted startDay endDay numCommits draws, by decide⟩

theorem c5_witness :
    (0 : Int) < 1 ∧
      (List.Sorted (· ≤ ·) (generate_random_date_range 0 1 3 (fun _ => (0, 0))) ∧
        generate_random_date_range 0 1 2 (fun _ => (0, 0)) = [0, 0]) :=
  ⟨by decide, c5_sorted_with_duplicates 0 1 3 (fun _ => (0, 0)) (by decide)⟩

/-- C6: for every valid start < end, every count and every draw sequence,
generate_random_date_range returns a sequence of length exactly count. -/
theorem c6_length_eq_count (startDay endDay : Int) (numCommits : Nat)
    (draws : Nat → Nat × Nat) (h : startDay < endDay) :
    (generate_random_date_range startDay endDay numCommits draws).length =
      numCommits :=
  gen_length startDay endDay numCommits draws h

theorem c6_witness :
    (0 : Int) < 1 ∧
      (generate_random_date_range 0 1 3 (fun _ => (0, 0))).length = 3 :=
  ⟨by decide, c6_length_eq_count 0 1 3 (fun _ => (0, 0)) (by decide)⟩

/-- C8: for every valid start < end, calling generate_random_date_range
with count = 0 returns an empty sequence. -/
theorem c8_count_zero_empty (startDay endDay : Int) (draws : Nat → Nat × Nat)
    (h : startDay < endDay) :
    generate_random_date_range startDay endDay 0 draws = [] := by
  rw [gen_eq_of_lt startDay endDay 0 draws h]
  rfl

theorem c8_witness :
    (0 : Int) < 1 ∧ generate_random_date_range 0 1 0 (fun _ => (0, 0)) = [] :=
  ⟨by decide, c8_count_zero_empty 0 1 (fun _ => (0, 0)) (by decide)⟩

/-- C2 counterexample: with start = day 0, end = day 1 and the draw
(day_offset raw 1, second_offset raw 86400), the single returned value is
172800 = end + 1 day, which is not strictly below end + 1 day. -/
theorem c2_counterexample :
    172800 ∈ generate_random_date_range 0 1 1 (fun _ => (1, 86400)) ∧
      ¬((172800 : Int) < 1 * 86400 + 86400) := by
  decide

/-- C2 (amended): for every valid start < end, every count and every draw
sequence, each returned value v satisfies start ≤ v ≤ end + 1 day — the
upper bound is inclusive, not strict. -/
theorem c2_range_bounds (startDay endDay : Int) (numCommits : Nat)
    (draws : Nat → Nat × Nat) (v : Int) (h : startDay < endDay)
    (hv : v ∈ generate_random_date_range startDay endDay numCommits draws) :
    startDay * 86400 ≤ v ∧ v ≤ endDay * 86400 + 86400 := by
  obtain ⟨d, s, hd, hs, rfl⟩ := exists_offsets_of_mem_gen h hv
  exact candidate_bounds h hd hs

theorem c2_witness :
    ((0 : Int) < 1 ∧
        172800 ∈ generate_random_date_range 0 1 1 (fun _ => (1, 86400))) ∧
      ((0 : Int) * 86400 ≤ 172800 ∧ (172800 : Int) ≤ 1 * 86400 + 86400) :=
  ⟨⟨by decide, by decide⟩,
    c2_range_bounds 0 1 1 (fun _ => (1, 86400)) 172800 (by decide) (by decide)⟩

/-- C7: for every valid start < end, each element of the result is of the
form start + day_offset days + second_offset seconds with day_offset in the
inclusive range [0, span_days] and second_offset in the inclusive range
[0, 86400]; and every value of an inclusive randint range (the boundary
86400 included) is attainable by some raw draw. -/
theorem c7_candidate_form (startDay endDay : Int) (numCommits : Nat)
    (draws : Nat → Nat × Nat) (h : startDay < endDay) :
    (∀ v ∈ generate_random_date_range startDay endDay numCommits draws,
        ∃ d s, d ≤ (endDay - startDay).toNat ∧ s ≤ 86400 ∧
          v = candidate startDay d s) ∧
      (∀ m x : Nat, x ≤ m → randint0 m x = x) :=
  ⟨fun _ hv => exists_offsets_of_mem_gen h hv, fun _ _ hx => randint0_eq_self hx⟩

theorem c7_witness :
    (0 : Int) < 1 ∧
      ((∀ v ∈ generate_random_date_range 0 1 1 (fun _ => (1, 86400)),
          ∃ d s, d ≤ ((1 : Int) - 0).toNat ∧ s ≤ 86400 ∧
            v = candidate 0 d s) ∧
        (∀ m x : Nat, x ≤ m → randint0 m x = x)) :=
  ⟨by decide, c7_candidate_form 0 1 1 (fun _ => (1, 86400)) (by decide)⟩

/-- C9: for every valid start < end, every returned value v satisfies
start ≤ v ≤ end + 1 day with the upper bound inclusive; a candidate with
in-range offsets equals end + 1 day exactly when day_offset = span_days and
second_offset = 86400; and end + 1 day is attained by an explicit draw
sequence. -/
theorem c9_inclusive_upper_bound (startDay endDay : Int)
    (h : startDay < endDay) :
    (∀ (numCommits : Nat) (draws : Nat → Nat × Nat) (v : Int),
        v ∈ generate_random_date_range startDay endDay numCommits draws →
          startDay * 86400 ≤ v ∧ v ≤ endDay * 86400 + 86400) ∧
      (∀ d s : Nat, d ≤ (endDay - startDay).toNat → s ≤ 86400 →
        (candidate startDay d s = endDay * 86400 + 86400 ↔
          d = (endDay - startDay).toNat ∧ s = 86400)) ∧
      endDay * 86400 + 86400 ∈
        generate_random_date_range startDay endDay 1
          (fun _ => ((endDay - startDay).toNat, 86400)) := by
  refine ⟨?_, ?_, ?_⟩
  · intro numCommits draws v hv
    obtain ⟨d, s, hd, hs, rfl⟩ := exists_offsets_of_mem_gen h hv
    exact candidate_bounds h hd hs
  · intro d s hd hs
    unfold candidate
    omega
  · rw [gen_eq_of_lt startDay endDay 1
        (fun _ => ((endDay - startDay).toNat, 86400)) h, List.mem_insertionSort,
      List.mem_map]
    refine ⟨0, by simp, ?_⟩
    show candidate startDay
        (randint0 (endDay - startDay).toNat (endDay - startDay).toNat)
        (randint0 86400 86400) = endDay * 86400 + 86400
    rw [randint0_eq_self le_rfl, randint0_eq_self le_rfl]
    unfold candidate
    omega

theorem c9_witness :
    (0 : Int) < 1 ∧
      ((∀ (numCommits : Nat) (draws : Nat → Nat × Nat) (v : Int),
          v ∈ generate_random_date_range 0 1 numCommits draws →
            (0 : Int) * 86400 ≤ v ∧ v ≤ 1 * 86400 + 86400) ∧
        (∀ d s : Nat, d ≤ ((1 : Int) - 0).toNat → s ≤ 86400 →
          (candidate 0 d s = 1 * 86400 + 86400 ↔
            d = ((1 : Int) - 0).toNat ∧ s = 86400)) ∧
        (1 : Int) * 86400 + 86400 ∈
          generate_random_date_range 0 1 1
            (fun _ => (((1 : Int) - 0).toNat, 86400))) :=
  ⟨by decide, c9_inclusive_upper_bound 0 1 (by decide)⟩

/-- C1: for every duplicate-free commit sequence and every generated date
sequence of matching length, the correlation step binds the i-th ascending
timestamp to the i-th commit, so the commit-to-date mapping is monotonic
non-decreasing with position. -/
theorem c1_mapping_monotone (startDay endDay : Int) (draws : Nat → Nat × Nat)
    (commits : List String) (h : startDay < endDay) (hnd : commits.Nodup)
    (i j : Nat) (hi : i < commits.length) (hj : j < commits.length)
    (hij : i ≤ j) :
    ∃ di dj,
      mapLookup (buildCommitDateMap commits
          (generate_random_date_range startDay endDay commits.length draws))
        (commits.get ⟨i, hi⟩) = some di ∧
      mapLookup (buildCommitDateMap commits
          (generate_random_date_range startDay endDay commits.length draws))
        (commits.get ⟨j, hj⟩) = some dj ∧
      di ≤ dj := by
  have hlen := gen_length startDay endDay commits.length draws h
  have hdi : i < (generate_random_date_range startDay endDay
      commits.length draws).length := by omega
  have hdj : j < (generate_random_date_range startDay endDay
      commits.length draws).length := by omega
  unfold mapLookup buildCommitDateMap
  refine ⟨_, _,
    lookup_zip_get commits _ hnd i hi hdi,
    lookup_zip_get commits _ hnd j hj hdj, ?_⟩
  exact (gen_sorted startDay endDay commits.length draws).rel_get_of_le
    (Fin.mk_le_mk.mpr hij)

theorem c1_witness :
    ((0 : Int) < 1 ∧ (["a", "b"] : List String).Nodup) ∧
      ∃ di dj,
        mapLookup (buildCommitDateMap ["a", "b"]
            (generate_random_date_range 0 1
              (["a", "b"] : List String).length (fun _ => (0, 0))))
          ((["a", "b"] : List String).get ⟨0, by decide⟩) = some di ∧
        mapLookup (buildCommitDateMap ["a", "b"]
            (generate_random_date_range 0 1
              (["a", "b"] : List String).length (fun _ => (0, 0))))
          ((["a", "b"] : List String).get ⟨1, by decide⟩) = some dj ∧
        di ≤ dj :=
  ⟨⟨by decide, by decide⟩,
    c1_mapping_monotone 0 1 (fun _ => (0, 0)) ["a", "b"] (by decide)
      (by decide) 0 1 (by decide) (by decide) (by decide)⟩

/-- C3 counterexample: with 5 generated dates against the 4 commits
["a","b","c","d"], git_transfer_fixed.py logs its mismatch warning but a
mapping covering all four commits is still produced — the surplus date is
silently dropped, refuting "no mapping is produced". -/
theorem c3_counterexample :
    countMismatchWarned ["a", "b", "c", "d"] [1, 2, 3, 4, 5] = true ∧
      correlateFixed 0 1 (fun _ => (0, 0)) ["a", "b", "c", "d"]
          [1, 2, 3, 4, 5] =
        [("a", 1), ("b", 2), ("c", 3), ("d", 4)] ∧
      correlateFixed 0 1 (fun _ => (0, 0)) ["a", "b", "c", "d"]
          [1, 2, 3, 4, 5] ≠ [] := by
  decide

/-- C3 (amended): a count mismatch is detected (and logged as a warning by
git_transfer_fixed.py) exactly when the lengths differ, but a mapping is
produced regardless, with one entry per listed commit: too few dates are
regenerated for the full commit count, surplus dates are silently
discarded. -/
theorem c3_mismatch_still_maps (startDay endDay : Int)
    (draws : Nat → Nat × Nat) (commits : List String) (dates : List Int)
    (h : startDay < endDay) :
    (countMismatchWarned commits dates = true ↔
        commits.length ≠ dates.length) ∧
      (correlateFixed startDay endDay draws commits dates).length =
        commits.length := by
  constructor
  · simp [countMismatchWarned]
  · unfold correlateFixed buildCommitDateMap adjustDates
    split_ifs with h1 h2
    · rw [List.length_zip, gen_length startDay endDay commits.length draws h]
      omega
    · rw [List.length_zip]
      omega
    · rw [List.length_zip]
      omega

theorem c3_witness :
    (0 : Int) < 1 ∧
      ((countMismatchWarned ["a", "b", "c", "d"] [1, 2, 3, 4, 5] = true ↔
          (["a", "b", "c", "d"] : List String).length ≠
            ([1, 2, 3, 4, 5] : List Int).length) ∧
        (correlateFixed 0 1 (fun _ => (0, 0)) ["a", "b", "c", "d"]
            [1, 2, 3, 4, 5]).length =
          (["a", "b", "c", "d"] : List String).length) :=
  ⟨by decide,
    c3_mismatch_still_maps 0 1 (fun _ => (0, 0)) ["a", "b", "c", "d"]
      [1, 2, 3, 4, 5] (by decide)⟩

/-- C10: in git_transfer_fixed.py's date-modification step, when there are
more commits than dates, the dates are regenerated from scratch for the
full commit count and the resulting mapping keys are exactly the commit
list; when there are more dates than commits, the surplus is silently
discarded and the mapping keys are again exactly the commit list — in
neither direction is the operation aborted. -/
theorem c10_fixed_adjustment (startDay endDay : Int)
    (draws : Nat → Nat × Nat) (commits : List String) (dates : List Int)
    (h : startDay < endDay) :
    (commits.length > dates.length →
        adjustDates startDay endDay draws commits dates =
          generate_random_date_range startDay endDay commits.length draws ∧
        (correlateFixed startDay endDay draws commits dates).map Prod.fst =
          commits) ∧
      (dates.length > commits.length →
        correlateFixed startDay endDay draws commits dates =
          commits.zip dates ∧
        (correlateFixed startDay endDay draws commits dates).map Prod.fst =
          commits) := by
  constructor
  · intro hgt
    have hadj : adjustDates startDay endDay draws commits dates =
        generate_random_date_range startDay endDay commits.length draws := by
      unfold adjustDates
      rw [if_pos (by omega), if_pos hgt]
    refine ⟨hadj, ?_⟩
    unfold correlateFixed buildCommitDateMap
    rw [hadj]
    exact List.map_fst_zip _ _
      (le_of_eq (gen_length startDay endDay commits.length draws h).symm)
  · intro hgt
    have hadj : adjustDates startDay endDay draws commits dates = dates := by
      unfold adjustDates
      rw [if_pos (by omega), if_neg (by omega)]
    constructor
    · unfold correlateFixed buildCommitDateMap
      rw [hadj]
    · unfold correlateFixed buildCommitDateMap
      rw [hadj]
      exact List.map_fst_zip _ _ (by omega)

theorem c10_witness :
    (0 : Int) < 1 ∧
      (((["a", "b", "c"] : List String).length >
            ([5] : List Int).length →
          adjustDates 0 1 (fun _ => (0, 0)) ["a", "b", "c"] [5] =
            generate_random_date_range 0 1
              (["a", "b", "c"] : List String).length (fun _ => (0, 0)) ∧
          (correlateFixed 0 1 (fun _ => (0, 0)) ["a", "b", "c"]
              [5]).map Prod.fst = ["a", "b", "c"]) ∧
        (([5] : List Int).length >
            (["a", "b", "c"] : List String).length →
          correlateFixed 0 1 (fun _ => (0, 0)) ["a", "b", "c"] [5] =
            (["a", "b", "c"] : List String).zip [5] ∧
          (correlateFixed 0 1 (fun _ => (0, 0)) ["a", "b", "c"]
              [5]).map Prod.fst = ["a", "b", "c"])) :=
  ⟨by decide,
    c10_fixed_adjustment 0 1 (fun _ => (0, 0)) ["a", "b", "c"] [5]
      (by decide)⟩
